import Mathlib

/-!
Verification of the ThreadSafe retention/expiry engine and hybrid encryption
layer, as a shallow embedding of the Python source
(backend/utils/cleanup_manager.py, backend/routes/conversations.py,
backend/routes/backups.py, backend/routes/groups.py,
backend/encryption/aes_handler.py, backend/encryption/ecc_handler.py,
backend/encryption/message_crypto.py).

Conventions of the embedding:
* wall-clock timestamps (`datetime`) are integers (seconds); `timedelta(hours=h)`
  is `h * 3600`; a nullable `DateTime` column is `Option Int`;
* database rows are Lean structures; the status table for a group message
  (keyed by `(msgID, userID)`) is stored as the list of that message's records;
* `emit_message_deleted(user, msg, other)` notifications are collected in an
  output list instead of being sent.
-/

namespace ThreadSafe

/-- Retention-relevant columns of a `User` row (models.py / settings.py):
`retentionHours = some h` models `settings['messageRetentionHours'] = h`;
`none` models a missing/empty settings blob or a missing key, so every
`sender.settings.get('messageRetentionHours', 24) if sender.settings else 24`
in the source becomes `retentionHours.getD 24`. -/
structure User where
  retentionHours : Option Int
  settings_updated_at : Option Int
deriving DecidableEq, Repr

/-- Retention-relevant columns of a direct `Message` row (models.py lines
329-396 plus the `timer_reset_at` column added by
scripts/add_timer_reset_columns.py). -/
structure Message where
  msgID : Nat
  senderID : Nat
  receiverID : Nat
  groupChatID : Option Nat
  timeStamp : Int
  read_by_sender_at : Option Int
  read_by_receiver_at : Option Int
  saved_by_sender : Bool
  saved_by_receiver : Bool
  deleted_for_sender : Bool
  deleted_for_receiver : Bool
  timer_reset_at : Option Int
  is_unsent : Bool
deriving DecidableEq, Repr

/-- One `emit_message_deleted(target, msgID, otherUser)` call. -/
abbrev Note := Nat × Nat × Nat

/-- Sender retention in hours:
`sender.settings.get('messageRetentionHours', 24) if sender.settings else 24`
(cleanup_manager.py line 63). -/
def retentionHoursOf (u : User) : Int :=
  u.retentionHours.getD 24

/-- Truthiness test `message.read_by_sender_at and message.read_by_receiver_at`
(cleanup_manager.py line 70): both parties have read the message. -/
def directBothRead (m : Message) : Bool :=
  m.read_by_sender_at.isSome && m.read_by_receiver_at.isSome

/-- Shared saved flag (cleanup_manager.py line 60): if either user saved,
treat as saved for both. -/
def isSavedDirect (m : Message) : Bool :=
  m.saved_by_sender || m.saved_by_receiver

/-- Start time of the sender-driven deletion window (cleanup_manager.py lines
72-83): `timer_reset_at` when set, otherwise the later of both read times,
bumped to `sender.settings_updated_at` when that is strictly later. -/
def directStartTime (sender : User) (m : Message) : Int :=
  match m.timer_reset_at with
  | some t => t
  | none =>
    let both_read_time :=
      max (m.read_by_sender_at.getD 0) (m.read_by_receiver_at.getD 0)
    match sender.settings_updated_at with
    | some s => if s > both_read_time then s else both_read_time
    | none => both_read_time

/-- Mark a direct message deleted for both sides, emitting one notification
per flag that was still false (cleanup_manager.py lines 93-105 and 116-125). -/
def markBothDeleted (m : Message) : Message × List Note :=
  let n1 : List Note :=
    if m.deleted_for_sender then [] else [(m.senderID, m.msgID, m.receiverID)]
  let n2 : List Note :=
    if m.deleted_for_receiver then [] else [(m.receiverID, m.msgID, m.senderID)]
  ({ m with deleted_for_sender := true, deleted_for_receiver := true }, n1 ++ n2)

/-- Soft-deletion phase of the per-message loop body of
`cleanup_expired_messages` (cleanup_manager.py lines 59-125): choose the
both-read retention deadline or the 24-hour fallback, and mark both sides
deleted when the deadline has passed and the message is not saved. -/
def directSoftPhase (now : Int) (sender : User) (m : Message) : Message × List Note :=
  if directBothRead m then
    let deadline := directStartTime sender m + retentionHoursOf sender * 3600
    if now ≥ deadline && !isSavedDirect m then markBothDeleted m else (m, [])
  else
    let fallback := m.timeStamp + 24 * 3600
    if now ≥ fallback && !isSavedDirect m then markBothDeleted m else (m, [])

/-- Full per-message behaviour of one `cleanup_expired_messages` pass over one
row: the query filter (lines 35-41) leaves group messages and messages already
deleted for both parties untouched; unsent messages are skipped (line 49);
missing sender or receiver rows are skipped (lines 53-57); otherwise the
soft-deletion phase runs and the row is hard-deleted once both deleted flags
hold (lines 127-131).  `none` in the first component means the row was
hard-deleted. -/
def directSweepStep (now : Int) (users : Nat → Option User) (m : Message) :
    Option Message × List Note :=
  if m.groupChatID.isSome || (m.deleted_for_sender && m.deleted_for_receiver) then
    (some m, [])
  else if m.is_unsent then
    (some m, [])
  else
    match users m.senderID, users m.receiverID with
    | some sender, some _ =>
      let r := directSoftPhase now sender m
      if r.1.deleted_for_sender && r.1.deleted_for_receiver then (none, r.2)
      else (some r.1, r.2)
    | some _, none => (some m, [])
    | none, _ => (some m, [])

/-- The sweep `cleanup_expired_messages` over the whole message table: the
per-row step applied in table order, collecting surviving rows and emitted
notifications. -/
def cleanup_expired_messages (now : Int) (users : Nat → Option User) :
    List Message → List Message × List Note
  | [] => ([], [])
  | m :: rest =>
    let r := directSweepStep now users m
    let rec' := cleanup_expired_messages now users rest
    match r.1 with
    | some m' => (m' :: rec'.1, r.2 ++ rec'.2)
    | none => (rec'.1, r.2 ++ rec'.2)

/-- Modelled from the spec: the `GroupMessageStatus` model class is imported
from `..models` by cleanup_manager.py, backups.py and groups.py but its
definition is absent from src/.  Per the spec data model ("for groups, one
status record per member: `readAt`, `savedByUser`, `deletedForUser`") and the
fields the source reads and writes, a record keyed by `(msgID, userID)` holds
`read_at`, `saved_by_user`, `deleted_for_user` and `timer_reset_at` (the last
added by scripts/add_timer_reset_columns.py); a freshly constructed
`GroupMessageStatus(msgID=…, userID=…)` has `read_at = None` and both flags
false. -/
structure GStatus where
  userID : Nat
  read_at : Option Int
  saved_by_user : Bool
  deleted_for_user : Bool
  timer_reset_at : Option Int
deriving DecidableEq, Repr

/-- Status record of one group member for one message:
`GroupMessageStatus.query.filter_by(msgID=…, userID=member_id).first()`, with
the lazily created default record when none exists
(cleanup_manager.py lines 186-198). -/
def lookupStatus (l : List GStatus) (uid : Nat) : GStatus :=
  (l.find? (fun s => s.userID == uid)).getD ⟨uid, none, false, false, none⟩

/-- Status records the sweep works on: one per current group member, existing
rows first, defaults materialised for members without one
(cleanup_manager.py lines 185-198). -/
def buildStatuses (members : List Nat) (l : List GStatus) : List GStatus :=
  members.map (lookupStatus l)

/-- Columns of a group `Message` row relevant to the group sweep, together
with its `GroupMessageStatus` records (rows of the status table keyed by this
`msgID`). -/
structure GMsg where
  msgID : Nat
  senderID : Nat
  groupChatID : Nat
  timeStamp : Int
  is_unsent : Bool
  statuses : List GStatus
deriving DecidableEq, Repr

/-- One `emit_group_message_deleted(member, {groupChatID, messageId})` call. -/
abbrev GNote := Nat × Nat × Nat

/-- Condition `all(s.read_at is not None for s in statuses.values())`
(cleanup_manager.py line 225). -/
def groupAllRead (sts : List GStatus) : Bool :=
  sts.all (fun s => s.read_at.isSome)

/-- Condition `any(s.saved_by_user for s in statuses.values())`
(cleanup_manager.py line 201). -/
def groupAnySaved (sts : List GStatus) : Bool :=
  sts.any (fun s => s.saved_by_user)

/-- Condition `all(s.deleted_for_user for s in statuses.values())`
(cleanup_manager.py line 207). -/
def groupAllDeleted (sts : List GStatus) : Bool :=
  sts.all (fun s => s.deleted_for_user)

/-- Python `max` over the (nonempty) list of effective read times. -/
def listMax : List Int → Int
  | [] => 0
  | t :: ts => ts.foldl max t

/-- Effective read time of one member (cleanup_manager.py lines 230-235):
`timer_reset_at` if set (message was unsaved), otherwise `read_at`. -/
def effectiveReadTime (s : GStatus) : Int :=
  match s.timer_reset_at with
  | some t => t
  | none => s.read_at.getD 0

/-- Set one status record's `deleted_for_user` flag
(cleanup_manager.py lines 244-245 and 260-261). -/
def setDeleted (s : GStatus) : GStatus :=
  { s with deleted_for_user := true }

/-- Soft-delete a group message for all members (cleanup_manager.py lines
242-250 and 258-266): set every member's `deleted_for_user`, emitting one
notification per member whose flag was still false. -/
def groupMarkAllDeleted (groupChatID msgID : Nat) (sts : List GStatus) :
    List GStatus × List GNote :=
  (sts.map setDeleted,
   sts.filterMap (fun s =>
     if s.deleted_for_user then none else some (s.userID, groupChatID, msgID)))

/-- Status-table rows of this message left untouched by the sweep: records of
users who are not current group members (the sweep's `statuses` dict covers
`member_ids` only). -/
def leftoverStatuses (members : List Nat) (l : List GStatus) : List GStatus :=
  l.filter (fun s => !(members.contains s.userID))

/-- Sender retention hours for a group message (cleanup_manager.py lines
218-222): default 24, overridden by the sender's settings when the sender row
exists and has settings. -/
def groupRetention (users : Nat → Option User) (m : GMsg) : Int :=
  match users m.senderID with
  | some sender => retentionHoursOf sender
  | none => 24

/-- Deadline test of the group sweep (cleanup_manager.py lines 224-241 and
252-257): when all members have read, the sender-retention deadline runs from
the latest effective read time; otherwise the 24-hour fallback runs from the
send time. -/
def groupDeadlineHit (now : Int) (users : Nat → Option User) (m : GMsg)
    (sts : List GStatus) : Bool :=
  if groupAllRead sts then
    now ≥ listMax (sts.map effectiveReadTime) + groupRetention users m * 3600
  else
    now ≥ m.timeStamp + 24 * 3600

/-- Full per-message behaviour of one `cleanup_expired_group_messages` pass
over one row (cleanup_manager.py lines 167-267): the query keeps unsent
messages untouched; rows with no group or no members are skipped; a message
saved by any member is skipped; a message already deleted for every member is
hard-deleted together with its member status records; otherwise the retention
deadline (all members read) or the 24-hour fallback decides whether every
member's `deleted_for_user` is set.  Lazily materialised default status
records are kept in the row (the source adds them to the session).  `none`
means the row was hard-deleted. -/
def groupSweepStep (now : Int) (groups : Nat → Option (List Nat))
    (users : Nat → Option User) (m : GMsg) : Option GMsg × List GNote :=
  if m.is_unsent then (some m, [])
  else
    match groups m.groupChatID with
    | none => (some m, [])
    | some members =>
      if members.isEmpty then (some m, [])
      else if groupAnySaved (buildStatuses members m.statuses) then
        (some { m with statuses :=
          buildStatuses members m.statuses ++ leftoverStatuses members m.statuses }, [])
      else if groupAllDeleted (buildStatuses members m.statuses) then
        (none, [])
      else if groupDeadlineHit now users m (buildStatuses members m.statuses) then
        (some { m with statuses :=
          (groupMarkAllDeleted m.groupChatID m.msgID (buildStatuses members m.statuses)).1 ++
            leftoverStatuses members m.statuses },
         (groupMarkAllDeleted m.groupChatID m.msgID (buildStatuses members m.statuses)).2)
      else
        (some { m with statuses :=
          buildStatuses members m.statuses ++ leftoverStatuses members m.statuses }, [])

/-- The sweep `cleanup_expired_group_messages` over all group-message rows. -/
def cleanup_expired_group_messages (now : Int) (groups : Nat → Option (List Nat))
    (users : Nat → Option User) : List GMsg → List GMsg × List GNote
  | [] => ([], [])
  | m :: rest =>
    let r := groupSweepStep now groups users m
    let rest' := cleanup_expired_group_messages now groups users rest
    match r.1 with
    | some m' => (m' :: rest'.1, r.2 ++ rest'.2)
    | none => (rest'.1, r.2 ++ rest'.2)

/-! ## Hybrid encryption layer

Byte strings are `List Nat`; the str/bytes UTF-8 round trip and the base64
transport encoding are bijections with `decode ∘ encode = id` and are modelled
as the identity on byte sequences.  Randomness (`os.urandom`,
`AESGCM.generate_key`, `ec.generate_private_key`) is modelled by an entropy
stream `σ : Nat → Nat` and a draw counter threaded through each function, so
"freshly generated" values are successive draws `σ ctr, σ (ctr+1), …`.

The AES-GCM and elliptic-curve primitives come from the external
`cryptography` library, not from this repository; they are modelled as an
ideal authenticated cipher (keystream XOR plus a tag that binds key, nonce and
ciphertext) and an ideal commutative key agreement. -/

/-- Bytes of a plaintext or ciphertext. -/
abbrev Bytes := List Nat

/-- Keystream byte `i` of AES-256 in counter mode under `key` and `nonce`
(ideal-cipher model of the library primitive). -/
def ksByte (key nonce i : Nat) : Nat :=
  (key * 131 + nonce * 31 + i * 7 + 5) % 256

/-- XOR a byte string against the keystream, starting at keystream index `i`. -/
def xorStreamFrom (key nonce i : Nat) : Bytes → Bytes
  | [] => []
  | b :: bs => (b ^^^ ksByte key nonce i) :: xorStreamFrom key nonce (i + 1) bs

/-- Raw GCM encryption of a byte string (self-inverse keystream XOR). -/
def xorStream (key nonce : Nat) (pt : Bytes) : Bytes :=
  xorStreamFrom key nonce 0 pt

/-- GCM authentication tag (16 bytes).  Modelled as an ideal MAC: the tag
binds exactly the key, the nonce and the ciphertext it authenticates. -/
structure GcmTag where
  key : Nat
  nonce : Nat
  ct : Bytes
deriving DecidableEq, Repr

/-- Output `ciphertext + tag` of `AESGCM.encrypt` (the library appends the
16-byte tag to the ciphertext; the source's slices `[:-16]` and `[-16:]` are
the two fields). -/
structure SealedBytes where
  ct : Bytes
  tag : GcmTag
deriving DecidableEq, Repr

/-- Library primitive `AESGCM(key).encrypt(nonce, plaintext, None)`
(ideal AEAD model). -/
def aesgcmSeal (key nonce : Nat) (pt : Bytes) : SealedBytes :=
  let ct := xorStream key nonce pt
  ⟨ct, ⟨key, nonce, ct⟩⟩

/-- Library primitive `AESGCM(key).decrypt(nonce, data, None)`: verify the
tag against the key, the nonce and the ciphertext, and fail closed (`none`)
on any mismatch. -/
def aesgcmOpen (key nonce : Nat) (s : SealedBytes) : Option Bytes :=
  if s.tag = ⟨key, nonce, s.ct⟩ then some (xorStream key nonce s.ct) else none

/-- Payload dict returned by `encrypt_message` (aes_handler.py lines 22-61):
`ciphertext` holds the combined ciphertext-with-tag, `nonce` the fresh
96-bit nonce, `tag` the last 16 bytes. -/
structure AesEncryptResult where
  ciphertext : SealedBytes
  nonce : Nat
  tag : GcmTag
deriving DecidableEq, Repr

/-- Function `encrypt_message` (aes_handler.py lines 22-61): draw a random
nonce, seal the plaintext under `aes_key`, return the combined blob, the
nonce and the tag, together with the advanced entropy counter. -/
def encrypt_message (σ : Nat → Nat) (ctr : Nat) (plaintext : Bytes)
    (aes_key : Nat) : AesEncryptResult × Nat :=
  let nonce := σ ctr
  let sealed := aesgcmSeal aes_key nonce plaintext
  (⟨sealed, nonce, sealed.tag⟩, ctr + 1)

/-- Function `decrypt_message` (aes_handler.py lines 64-93): decode the
combined ciphertext-with-tag and the nonce, decrypt and verify authenticity;
any failure raises (`none`).  The optional `tag_b64` argument is accepted but
unused by the source. -/
def decrypt_message (ciphertext : SealedBytes) (nonce : Nat) (aes_key : Nat)
    (tagArg : Option GcmTag := none) : Option Bytes :=
  let _ := tagArg
  aesgcmOpen aes_key nonce ciphertext

/-- Elliptic-curve public key of a private scalar (P-256 point `d·G`,
serialisation to base64 PEM and back modelled as the identity). -/
def pubOf (d : Nat) : Nat := d

/-- Library primitive `private_key.exchange(ec.ECDH(), peer_public_key)`:
ideal commutative key agreement, so
`ecdhShared d1 (pubOf d2) = ecdhShared d2 (pubOf d1)`. -/
def ecdhShared (priv pub : Nat) : Nat := priv * pub

/-- HKDF-SHA256 with `info=b'encryption'` deriving a 256-bit key from the
shared secret (ecc_handler.py lines 113-118, injective model). -/
def hkdfEncryptionKey (shared : Nat) : Nat := shared + 1

/-- An AES key carried as plaintext bytes of the key-wrap cipher call. -/
def keyBytes (k : Nat) : Bytes := [k]

/-- Inverse of `keyBytes` applied to the bytes `aesgcm.decrypt` returns. -/
def bytesKey (bs : Bytes) : Nat := bs.headD 0

/-- Combined `nonce + ciphertext` blob built by
`encrypt_aes_key_with_public_key` (ecc_handler.py line 126); the decryptor's
slices `[:12]` and `[12:]` are the two fields. -/
structure WrappedKeyBlob where
  nonce : Nat
  sealed : SealedBytes
deriving DecidableEq, Repr

/-- Function `encrypt_aes_key_with_public_key` (ecc_handler.py lines 90-131):
generate an ephemeral key pair, run ECDH against the recipient public key,
derive the key-encryption key, seal the AES key under a fresh nonce, and
return the combined blob plus the serialised ephemeral public key. -/
def encrypt_aes_key_with_public_key (σ : Nat → Nat) (ctr : Nat) (aes_key : Nat)
    (recipient_public_key : Nat) : (WrappedKeyBlob × Nat) × Nat :=
  let ephemeral_private_key := σ ctr
  let shared := ecdhShared ephemeral_private_key recipient_public_key
  let derived := hkdfEncryptionKey shared
  let nonce := σ (ctr + 1)
  let sealed := aesgcmSeal derived nonce (keyBytes aes_key)
  ((⟨nonce, sealed⟩, pubOf ephemeral_private_key), ctr + 2)

/-- Function `decrypt_aes_key_with_private_key` (ecc_handler.py lines
134-169): split the blob into nonce and ciphertext, run ECDH between the
recipient private key and the embedded ephemeral public key, derive the same
key-encryption key and open the sealed AES key; an authentication failure
propagates (`none`). -/
def decrypt_aes_key_with_private_key (encrypted_data : WrappedKeyBlob)
    (ephemeral_public_key : Nat) (recipient_private_key : Nat) : Option Nat :=
  let shared := ecdhShared recipient_private_key ephemeral_public_key
  let derived := hkdfEncryptionKey shared
  (aesgcmOpen derived encrypted_data.nonce encrypted_data.sealed).map bytesKey

/-- Payload dict returned by `encrypt_message_for_user`
(message_crypto.py lines 19-58). -/
structure MsgPayload where
  encrypted_content : SealedBytes
  iv : Nat
  auth_tag : GcmTag
  encrypted_aes_key : WrappedKeyBlob
  ephemeral_public_key : Nat
deriving DecidableEq, Repr

/-- Function `encrypt_message_for_user` (message_crypto.py lines 19-58):
generate a unique AES key, encrypt the message with AES-256-GCM, wrap the AES
key for the recipient, and combine everything into one payload. -/
def encrypt_message_for_user (σ : Nat → Nat) (ctr : Nat) (plaintext : Bytes)
    (recipient_public_key : Nat) : MsgPayload × Nat :=
  let aes_key := σ ctr
  let aesr := encrypt_message σ (ctr + 1) plaintext aes_key
  let wrapr := encrypt_aes_key_with_public_key σ aesr.2 aes_key recipient_public_key
  (⟨aesr.1.ciphertext, aesr.1.nonce, aesr.1.tag, wrapr.1.1, wrapr.1.2⟩, wrapr.2)

/-- Function `decrypt_message_from_user` (message_crypto.py lines 61-90):
unwrap the AES key with the recipient private key, then decrypt the message
with the recovered key; any authentication failure propagates (`none`). -/
def decrypt_message_from_user (encrypted_content : SealedBytes) (iv : Nat)
    (encrypted_aes_key : WrappedKeyBlob) (ephemeral_public_key : Nat)
    (recipient_private_key : Nat) : Option Bytes :=
  match decrypt_aes_key_with_private_key encrypted_aes_key ephemeral_public_key
      recipient_private_key with
  | none => none
  | some aes_key => decrypt_message encrypted_content iv aes_key

/-! ## Route handlers -/

/-- Encryption columns of the `Message` row stored by the server-side
(legacy) branch of `create_message` (conversations.py lines 453-472),
together with the retention-relevant columns (`meta`). -/
structure StoredServerMessage where
  encryptedContent : SealedBytes
  iv : Nat
  hmac : GcmTag
  encrypted_aes_key : WrappedKeyBlob
  ephemeral_public_key : Nat
  sender_encrypted_content : SealedBytes
  sender_iv : Nat
  sender_hmac : GcmTag
  sender_encrypted_aes_key : WrappedKeyBlob
  sender_ephemeral_public_key : Nat
  meta : Message
deriving DecidableEq, Repr

/-- Server-side encryption branch of `create_message` (conversations.py lines
422-472): encrypt the content twice with `encrypt_message_for_user` — once
for the recipient, once for the sender — and store both encrypted versions;
`read_by_sender_at` is set to the creation time, every other retention column
takes its model default. -/
def create_message_server (σ : Nat → Nat) (ctr : Nat) (now : Int)
    (msgID sender_id receiver_id : Nat) (content : Bytes)
    (recipient_public_key sender_public_key : Nat) : StoredServerMessage :=
  let recipient_encrypted := encrypt_message_for_user σ ctr content recipient_public_key
  let sender_encrypted := encrypt_message_for_user σ recipient_encrypted.2 content sender_public_key
  { encryptedContent := recipient_encrypted.1.encrypted_content
    iv := recipient_encrypted.1.iv
    hmac := recipient_encrypted.1.auth_tag
    encrypted_aes_key := recipient_encrypted.1.encrypted_aes_key
    ephemeral_public_key := recipient_encrypted.1.ephemeral_public_key
    sender_encrypted_content := sender_encrypted.1.encrypted_content
    sender_iv := sender_encrypted.1.iv
    sender_hmac := sender_encrypted.1.auth_tag
    sender_encrypted_aes_key := sender_encrypted.1.encrypted_aes_key
    sender_ephemeral_public_key := sender_encrypted.1.ephemeral_public_key
    meta :=
      { msgID := msgID
        senderID := sender_id
        receiverID := receiver_id
        groupChatID := none
        timeStamp := now
        read_by_sender_at := some now
        read_by_receiver_at := none
        saved_by_sender := false
        saved_by_receiver := false
        deleted_for_sender := false
        deleted_for_receiver := false
        timer_reset_at := none
        is_unsent := false } }

/-- Pre-encrypted payload fields a client sends
(conversations.py lines 388-399); the ciphertext blobs are opaque strings to
the server, modelled as byte strings. -/
structure ClientPayload where
  encryptedContent : Bytes
  iv : Nat
  recipientEncryptedKey : Nat
  recipientEphemeralKey : Nat
  senderEncryptedKey : Nat
  senderEphemeralKey : Nat
deriving DecidableEq, Repr

/-- Encryption columns of the `Message` row stored by the client-side
encryption branch of `create_message` (conversations.py lines 402-421),
together with the retention-relevant columns (`meta`). -/
structure StoredClientMessage where
  encryptedContent : Bytes
  iv : Nat
  encrypted_aes_key : Nat
  ephemeral_public_key : Nat
  sender_encrypted_content : Bytes
  sender_iv : Nat
  sender_encrypted_aes_key : Nat
  sender_ephemeral_public_key : Nat
  meta : Message
deriving DecidableEq, Repr

/-- Client-side encryption branch of `create_message` (conversations.py lines
388-421): the pre-encrypted data is stored directly; the recipient copy and
the sender copy both take the payload's single `encryptedContent` and `iv`,
and only the wrapped keys differ; `read_by_sender_at` is set to the creation
time. -/
def create_message_client (now : Int) (msgID sender_id receiver_id : Nat)
    (p : ClientPayload) : StoredClientMessage :=
  { encryptedContent := p.encryptedContent
    iv := p.iv
    encrypted_aes_key := p.recipientEncryptedKey
    ephemeral_public_key := p.recipientEphemeralKey
    sender_encrypted_content := p.encryptedContent
    sender_iv := p.iv
    sender_encrypted_aes_key := p.senderEncryptedKey
    sender_ephemeral_public_key := p.senderEphemeralKey
    meta :=
      { msgID := msgID
        senderID := sender_id
        receiverID := receiver_id
        groupChatID := none
        timeStamp := now
        read_by_sender_at := some now
        read_by_receiver_at := none
        saved_by_sender := false
        saved_by_receiver := false
        deleted_for_sender := false
        deleted_for_receiver := false
        timer_reset_at := none
        is_unsent := false } }

/-- Group-message creation `send_group_message` (groups.py lines 833-861),
retention-relevant part: the new `Message` row plus the single status record
created with it — the sender's, marked read at the creation time. -/
def send_group_message (now : Int) (msgID sender_id group_id : Nat) : GMsg :=
  { msgID := msgID
    senderID := sender_id
    groupChatID := group_id
    timeStamp := now
    is_unsent := false
    statuses := [⟨sender_id, some now, false, false, none⟩] }

/-- Route `delete_backup`, 1-1 branch (backups.py lines 158-192): after the
access check and the shared-saved check, un-star for BOTH users and set
`timer_reset_at` to the current time.  `Except` carries the error responses. -/
def delete_backup_direct (now : Int) (current_user_id : Nat) (m : Message) :
    Except String Message :=
  if m.senderID ≠ current_user_id ∧ m.receiverID ≠ current_user_id then
    .error "You can only delete your own backups."
  else if !(m.saved_by_sender || m.saved_by_receiver) then
    .error "Message is not in your backups."
  else
    .ok { m with saved_by_sender := false, saved_by_receiver := false,
                 timer_reset_at := some now }

/-- Route `delete_backup`, group branch (backups.py lines 122-156): the
caller must have a status record with `saved_by_user` set; then EVERY status
record of the message is un-saved and gets `timer_reset_at` set to the
current time. -/
def delete_backup_group (now : Int) (current_user_id : Nat)
    (statuses : List GStatus) : Except String (List GStatus) :=
  match statuses.find? (fun s => s.userID == current_user_id) with
  | none => .error "Message is not in your backups."
  | some st =>
    if !st.saved_by_user then
      .error "Message is not in your backups."
    else
      .ok (statuses.map (fun s =>
        { s with saved_by_user := false, timer_reset_at := some now }))

/-! ## Helper lemmas -/

theorem xorStreamFrom_involutive (key nonce i : Nat) (bs : Bytes) :
    xorStreamFrom key nonce i (xorStreamFrom key nonce i bs) = bs := by
  induction bs generalizing i with
  | nil => rfl
  | cons b bs ih =>
    simp [xorStreamFrom, ih, Nat.xor_assoc, Nat.xor_self, Nat.xor_zero]

theorem xorStream_involutive (key nonce : Nat) (bs : Bytes) :
    xorStream key nonce (xorStream key nonce bs) = bs :=
  xorStreamFrom_involutive key nonce 0 bs

theorem aesgcmOpen_seal (key nonce : Nat) (pt : Bytes) :
    aesgcmOpen key nonce (aesgcmSeal key nonce pt) = some pt := by
  simp [aesgcmOpen, aesgcmSeal, xorStream_involutive]

theorem ecdh_comm (a b : Nat) : ecdhShared a (pubOf b) = ecdhShared b (pubOf a) :=
  Nat.mul_comm a b

/-- C7.  Hybrid-encryption round-trip: for every plaintext, entropy stream
and recipient key pair `(d, pubOf d)`, decrypting the payload produced by
`encrypt_message_for_user` with the matching private key returns exactly the
plaintext. -/
theorem hybrid_round_trip (σ : Nat → Nat) (ctr : Nat) (pt : Bytes) (d : Nat) :
    decrypt_message_from_user
      (encrypt_message_for_user σ ctr pt (pubOf d)).1.encrypted_content
      (encrypt_message_for_user σ ctr pt (pubOf d)).1.iv
      (encrypt_message_for_user σ ctr pt (pubOf d)).1.encrypted_aes_key
      (encrypt_message_for_user σ ctr pt (pubOf d)).1.ephemeral_public_key
      d = some pt := by
  simp [decrypt_message_from_user, encrypt_message_for_user, encrypt_message,
    decrypt_aes_key_with_private_key, encrypt_aes_key_with_public_key,
    ecdhShared, pubOf, Nat.mul_comm d, aesgcmOpen_seal, keyBytes, bytesKey,
    decrypt_message]

/-- C8.  Fail-closed decryption: `encrypt_message` and
`encrypt_aes_key_with_public_key` produce exactly the ideal-AEAD seals stated
in the first two conjuncts, and modifying any single component (ciphertext,
nonce or tag of a sealed message; nonce, ciphertext or tag of a wrapped key;
or the ephemeral public key) while the rest stays intact makes
`decrypt_message` / `decrypt_aes_key_with_private_key` fail with no
plaintext (`none`); finally, whenever `decrypt_message` does succeed, its
input was the authentic seal of the returned plaintext, so altered plaintext
is never returned. -/
theorem decrypt_fail_closed :
    (∀ (σ : Nat → Nat) (ctr : Nat) (pt : Bytes) (key : Nat),
        (encrypt_message σ ctr pt key).1.ciphertext = aesgcmSeal key (σ ctr) pt ∧
        (encrypt_message σ ctr pt key).1.nonce = σ ctr) ∧
    (∀ (key nonce : Nat) (pt ct' : Bytes), ct' ≠ xorStream key nonce pt →
        decrypt_message ⟨ct', (aesgcmSeal key nonce pt).tag⟩ nonce key = none) ∧
    (∀ (key nonce : Nat) (pt : Bytes) (n' : Nat), n' ≠ nonce →
        decrypt_message (aesgcmSeal key nonce pt) n' key = none) ∧
    (∀ (key nonce : Nat) (pt : Bytes) (tg : GcmTag), tg ≠ (aesgcmSeal key nonce pt).tag →
        decrypt_message ⟨(aesgcmSeal key nonce pt).ct, tg⟩ nonce key = none) ∧
    (∀ (σ : Nat → Nat) (ctr aes_key rpub : Nat),
        (encrypt_aes_key_with_public_key σ ctr aes_key rpub).1.1 =
          ⟨σ (ctr + 1),
           aesgcmSeal (hkdfEncryptionKey (ecdhShared (σ ctr) rpub)) (σ (ctr + 1))
             (keyBytes aes_key)⟩ ∧
        (encrypt_aes_key_with_public_key σ ctr aes_key rpub).1.2 = pubOf (σ ctr)) ∧
    (∀ (eph nonce aes_key d n' : Nat), n' ≠ nonce →
        decrypt_aes_key_with_private_key
          ⟨n', aesgcmSeal (hkdfEncryptionKey (ecdhShared eph (pubOf d))) nonce
            (keyBytes aes_key)⟩ (pubOf eph) d = none) ∧
    (∀ (eph nonce aes_key d : Nat) (ct' : Bytes),
        ct' ≠ (aesgcmSeal (hkdfEncryptionKey (ecdhShared eph (pubOf d))) nonce
          (keyBytes aes_key)).ct →
        decrypt_aes_key_with_private_key
          ⟨nonce, ⟨ct', (aesgcmSeal (hkdfEncryptionKey (ecdhShared eph (pubOf d))) nonce
            (keyBytes aes_key)).tag⟩⟩ (pubOf eph) d = none) ∧
    (∀ (eph nonce aes_key d : Nat) (tg : GcmTag),
        tg ≠ (aesgcmSeal (hkdfEncryptionKey (ecdhShared eph (pubOf d))) nonce
          (keyBytes aes_key)).tag →
        decrypt_aes_key_with_private_key
          ⟨nonce, ⟨(aesgcmSeal (hkdfEncryptionKey (ecdhShared eph (pubOf d))) nonce
            (keyBytes aes_key)).ct, tg⟩⟩ (pubOf eph) d = none) ∧
    (∀ (eph nonce aes_key d e' : Nat), 0 < d → e' ≠ pubOf eph →
        decrypt_aes_key_with_private_key
          ⟨nonce, aesgcmSeal (hkdfEncryptionKey (ecdhShared eph (pubOf d))) nonce
            (keyBytes aes_key)⟩ e' d = none) ∧
    (∀ (key n' : Nat) (s' : SealedBytes) (pt' : Bytes),
        decrypt_message s' n' key = some pt' → s' = aesgcmSeal key n' pt') := by
  refine ⟨?_, ?_, ?_, ?_, ?_, ?_, ?_, ?_, ?_, ?_⟩
  · intro σ ctr pt key
    exact ⟨rfl, rfl⟩
  · intro key nonce pt ct' h
    simp only [decrypt_message, aesgcmOpen, aesgcmSeal, GcmTag.mk.injEq]
    rw [if_neg]
    intro hh
    exact h hh.2.2.symm
  · intro key nonce pt n' h
    simp only [decrypt_message, aesgcmOpen, aesgcmSeal, GcmTag.mk.injEq]
    rw [if_neg]
    intro hh
    exact h hh.2.1.symm
  · intro key nonce pt tg h
    simp only [decrypt_message, aesgcmOpen, aesgcmSeal]
    rw [if_neg]
    intro hh
    exact h hh
  · intro σ ctr aes_key rpub
    exact ⟨rfl, rfl⟩
  · intro eph nonce aes_key d n' h
    simp only [decrypt_aes_key_with_private_key]
    rw [ecdh_comm d eph]
    simp only [aesgcmOpen, aesgcmSeal, GcmTag.mk.injEq]
    rw [if_neg]
    · rfl
    · intro hh
      exact h hh.2.1.symm
  · intro eph nonce aes_key d ct' h
    simp only [decrypt_aes_key_with_private_key]
    rw [ecdh_comm d eph]
    simp only [aesgcmOpen, aesgcmSeal, GcmTag.mk.injEq]
    rw [if_neg]
    · rfl
    · intro hh
      exact h hh.2.2.symm
  · intro eph nonce aes_key d tg h
    simp only [decrypt_aes_key_with_private_key]
    rw [ecdh_comm d eph]
    simp only [aesgcmOpen, aesgcmSeal]
    rw [if_neg]
    · rfl
    · intro hh
      exact h hh
  · intro eph nonce aes_key d e' hd h
    simp only [decrypt_aes_key_with_private_key, aesgcmOpen, aesgcmSeal,
      GcmTag.mk.injEq, hkdfEncryptionKey, ecdhShared, pubOf]
    rw [if_neg]
    · rfl
    · intro hh
      have h1 : eph * d = d * e' := Nat.add_right_cancel hh.1
      have h2 : d * eph = d * e' := by rw [Nat.mul_comm d eph]; exact h1
      exact h (Nat.eq_of_mul_eq_mul_left hd h2).symm
  · intro key n' s' pt' h
    simp only [decrypt_message, aesgcmOpen] at h
    by_cases hc : s'.tag = ⟨key, n', s'.ct⟩
    · rw [if_pos hc] at h
      obtain rfl : pt' = xorStream key n' s'.ct := (Option.some.inj h).symm
      have he : aesgcmSeal key n' (xorStream key n' s'.ct) =
          ⟨s'.ct, ⟨key, n', s'.ct⟩⟩ := by
        simp only [aesgcmSeal, xorStream_involutive]
      rw [he, ← hc]
    · rw [if_neg hc] at h
      exact absurd h (by simp)

/-- Closed witness for `decrypt_fail_closed`: each tamper case evaluated at a
concrete key, nonce and plaintext. -/
theorem decrypt_fail_closed_witness :
    decrypt_message ⟨[0], (aesgcmSeal 1 2 [5]).tag⟩ 2 1 = none ∧
    decrypt_message (aesgcmSeal 1 2 [5]) 3 1 = none ∧
    decrypt_message ⟨(aesgcmSeal 1 2 [5]).ct, ⟨9, 9, []⟩⟩ 2 1 = none ∧
    decrypt_aes_key_with_private_key
      ⟨8, aesgcmSeal (hkdfEncryptionKey (ecdhShared 4 (pubOf 2))) 7 (keyBytes 6)⟩
      (pubOf 4) 2 = none ∧
    decrypt_aes_key_with_private_key
      ⟨7, ⟨[1, 2], (aesgcmSeal (hkdfEncryptionKey (ecdhShared 4 (pubOf 2))) 7
        (keyBytes 6)).tag⟩⟩ (pubOf 4) 2 = none ∧
    decrypt_aes_key_with_private_key
      ⟨7, ⟨(aesgcmSeal (hkdfEncryptionKey (ecdhShared 4 (pubOf 2))) 7
        (keyBytes 6)).ct, ⟨0, 0, []⟩⟩⟩ (pubOf 4) 2 = none ∧
    decrypt_aes_key_with_private_key
      ⟨7, aesgcmSeal (hkdfEncryptionKey (ecdhShared 4 (pubOf 2))) 7 (keyBytes 6)⟩
      5 2 = none ∧
    aesgcmSeal 1 2 [5] = aesgcmSeal 1 2 [5] := by
  refine ⟨?_, ?_, ?_, ?_, ?_, ?_, ?_, ?_⟩
  · exact decrypt_fail_closed.2.1 1 2 [5] [0] (by decide)
  · exact decrypt_fail_closed.2.2.1 1 2 [5] 3 (by decide)
  · exact decrypt_fail_closed.2.2.2.1 1 2 [5] ⟨9, 9, []⟩ (by decide)
  · exact decrypt_fail_closed.2.2.2.2.2.1 4 7 6 2 8 (by decide)
  · exact decrypt_fail_closed.2.2.2.2.2.2.1 4 7 6 2 [1, 2] (by decide)
  · exact decrypt_fail_closed.2.2.2.2.2.2.2.1 4 7 6 2 ⟨0, 0, []⟩ (by decide)
  · exact decrypt_fail_closed.2.2.2.2.2.2.2.2.1 4 7 6 2 5 (by decide) (by decide)
  · exact decrypt_fail_closed.2.2.2.2.2.2.2.2.2 1 2 (aesgcmSeal 1 2 [5]) [5]
      (by decide)

/-- C6 amended.  Server-encrypted direct messages: the two stored copies come
from two independent `encrypt_message_for_user` calls — each side's
ciphertext is sealed under its own freshly drawn symmetric key, and for an
injective entropy stream the symmetric keys, the nonces, the wrapped-key
blobs and the ephemeral public keys of the two sides are pairwise distinct. -/
theorem compose_independence_server (σ : Nat → Nat) (hσ : Function.Injective σ)
    (ctr : Nat) (now : Int) (msgID sid rid : Nat) (content : Bytes)
    (rpub spub : Nat) :
    σ ctr ≠ σ (ctr + 4) ∧
    (create_message_server σ ctr now msgID sid rid content rpub spub).encryptedContent =
      aesgcmSeal (σ ctr) (σ (ctr + 1)) content ∧
    (create_message_server σ ctr now msgID sid rid content rpub spub).sender_encrypted_content =
      aesgcmSeal (σ (ctr + 4)) (σ (ctr + 5)) content ∧
    (create_message_server σ ctr now msgID sid rid content rpub spub).iv ≠
      (create_message_server σ ctr now msgID sid rid content rpub spub).sender_iv ∧
    (create_message_server σ ctr now msgID sid rid content rpub spub).encrypted_aes_key ≠
      (create_message_server σ ctr now msgID sid rid content rpub spub).sender_encrypted_aes_key ∧
    (create_message_server σ ctr now msgID sid rid content rpub spub).ephemeral_public_key ≠
      (create_message_server σ ctr now msgID sid rid content rpub spub).sender_ephemeral_public_key := by
  have hne : ∀ a b : Nat, a ≠ b → σ a ≠ σ b := fun a b hab h => hab (hσ h)
  refine ⟨hne ctr (ctr + 4) (by omega), rfl, rfl, ?_, ?_, ?_⟩
  · exact hne (ctr + 1) (ctr + 5) (by omega)
  · intro h
    have := congrArg WrappedKeyBlob.nonce h
    exact hne (ctr + 3) (ctr + 7) (by omega) this
  · exact hne (ctr + 2) (ctr + 6) (by omega)

/-- Closed witness for `compose_independence_server` with the identity
entropy stream. -/
theorem compose_independence_server_witness :
    (0 : Nat) ≠ 4 ∧
    (create_message_server id 0 0 1 2 3 [7] 4 5).encryptedContent =
      aesgcmSeal 0 1 [7] ∧
    (create_message_server id 0 0 1 2 3 [7] 4 5).sender_encrypted_content =
      aesgcmSeal 4 5 [7] ∧
    (create_message_server id 0 0 1 2 3 [7] 4 5).iv ≠
      (create_message_server id 0 0 1 2 3 [7] 4 5).sender_iv ∧
    (create_message_server id 0 0 1 2 3 [7] 4 5).encrypted_aes_key ≠
      (create_message_server id 0 0 1 2 3 [7] 4 5).sender_encrypted_aes_key ∧
    (create_message_server id 0 0 1 2 3 [7] 4 5).ephemeral_public_key ≠
      (create_message_server id 0 0 1 2 3 [7] 4 5).sender_ephemeral_public_key :=
  compose_independence_server id (fun _ _ h => h) 0 0 1 2 3 [7] 4 5

/-- C6 counterexample: a client-encrypted direct message (the
`encrypted=true` branch of `create_message`) stores the payload's single
ciphertext and iv in BOTH the receiver copy and the sender copy, so the two
stored copies share ciphertext and nonce, refuting the claim for every
direct message created. -/
theorem compose_shared_ciphertext_client_cex :
    (create_message_client 0 1 2 3 ⟨[9, 9], 7, 11, 12, 13, 14⟩).sender_encrypted_content =
      (create_message_client 0 1 2 3 ⟨[9, 9], 7, 11, 12, 13, 14⟩).encryptedContent ∧
    (create_message_client 0 1 2 3 ⟨[9, 9], 7, 11, 12, 13, 14⟩).sender_iv =
      (create_message_client 0 1 2 3 ⟨[9, 9], 7, 11, 12, 13, 14⟩).iv :=
  ⟨rfl, rfl⟩

/-! ## Status-table lemmas

The sweep materialises the per-member status records of a message
(`buildStatuses`), rewrites them, and stores them back in front of the
untouched records of non-members.  The lemmas here say that looking up a user
in the rewritten table gives the rewritten record for members and the
original record for everyone else. -/

theorem lookupStatus_userID (l : List GStatus) (uid : Nat) :
    (lookupStatus l uid).userID = uid := by
  induction l with
  | nil => rfl
  | cons s rest ih =>
    unfold lookupStatus
    rw [List.find?]
    cases h : s.userID == uid with
    | true =>
      simp only [Option.getD_some]
      exact eq_of_beq h
    | false => exact ih

theorem find?_map_of_mem (f : Nat → GStatus) (hf : ∀ u, (f u).userID = u)
    (members : List Nat) (uid : Nat) (hm : members.contains uid = true) :
    (members.map f).find? (fun s => s.userID == uid) = some (f uid) := by
  induction members with
  | nil => simp at hm
  | cons u rest ih =>
    rw [List.map_cons, List.find?]
    cases h : (f u).userID == uid with
    | true =>
      have : u = uid := by rw [← hf u]; exact eq_of_beq h
      rw [this]
    | false =>
      have hne : u ≠ uid := by
        intro he
        rw [he, hf uid] at h
        simp at h
      have : rest.contains uid = true := by
        rw [List.contains_cons] at hm
        rcases Bool.or_eq_true_iff.mp hm with h1 | h1
        · exact absurd (eq_of_beq h1).symm hne
        · exact h1
      exact ih this

theorem find?_map_of_not_mem (f : Nat → GStatus) (hf : ∀ u, (f u).userID = u)
    (members : List Nat) (uid : Nat) (hm : members.contains uid = false) :
    (members.map f).find? (fun s => s.userID == uid) = none := by
  induction members with
  | nil => rfl
  | cons u rest ih =>
    rw [List.contains_cons, Bool.or_eq_false_iff] at hm
    rw [List.map_cons, List.find?]
    cases h : (f u).userID == uid with
    | true =>
      have : u = uid := by rw [← hf u]; exact eq_of_beq h
      rw [this] at hm
      simp at hm
    | false => exact ih hm.2

theorem find?_leftover (members : List Nat) (l : List GStatus) (uid : Nat)
    (hm : members.contains uid = false) :
    (leftoverStatuses members l).find? (fun s => s.userID == uid) =
      l.find? (fun s => s.userID == uid) := by
  induction l with
  | nil => rfl
  | cons s rest ih =>
    unfold leftoverStatuses at ih ⊢
    rw [List.filter_cons]
    cases h : s.userID == uid with
    | true =>
      have hsid : s.userID = uid := eq_of_beq h
      have : (!members.contains s.userID) = true := by rw [hsid, hm]; rfl
      rw [this]
      simp only [if_true]
      rw [List.find?, h]
      rw [List.find?, h]
    | false =>
      by_cases hk : (!members.contains s.userID) = true
      · rw [hk]
        simp only [if_true]
        rw [List.find?, h, List.find?, h]
        exact ih
      · rw [Bool.not_eq_true] at hk
        rw [hk]
        simp only [Bool.false_eq_true, if_false]
        rw [List.find?, h]
        exact ih

theorem lookupStatus_mapped_append (f : Nat → GStatus)
    (hf : ∀ u, (f u).userID = u) (members : List Nat) (l : List GStatus)
    (uid : Nat) :
    lookupStatus (members.map f ++ leftoverStatuses members l) uid =
      if members.contains uid then f uid else lookupStatus l uid := by
  by_cases hm : members.contains uid = true
  · rw [if_pos hm]
    unfold lookupStatus
    rw [List.find?_append, find?_map_of_mem f hf members uid hm]
    rfl
  · have hm' : members.contains uid = false := by
      cases h : members.contains uid
      · rfl
      · exact absurd h hm
    rw [if_neg (by rw [hm']; exact Bool.false_ne_true)]
    unfold lookupStatus
    rw [List.find?_append, find?_map_of_not_mem f hf members uid hm',
      find?_leftover members l uid hm']
    rfl

theorem lookupStatus_build_append (members : List Nat) (l : List GStatus)
    (uid : Nat) :
    lookupStatus (buildStatuses members l ++ leftoverStatuses members l) uid =
      lookupStatus l uid := by
  unfold buildStatuses
  rw [lookupStatus_mapped_append (lookupStatus l)
    (fun u => lookupStatus_userID l u) members l uid]
  split <;> rfl

theorem lookupStatus_marked_append (gid mid : Nat) (members : List Nat)
    (l : List GStatus) (uid : Nat) :
    lookupStatus ((groupMarkAllDeleted gid mid (buildStatuses members l)).1 ++
        leftoverStatuses members l) uid =
      if members.contains uid then setDeleted (lookupStatus l uid)
      else lookupStatus l uid := by
  have h1 : (groupMarkAllDeleted gid mid (buildStatuses members l)).1 =
      members.map (setDeleted ∘ lookupStatus l) := by
    unfold groupMarkAllDeleted buildStatuses
    rw [List.map_map]
  rw [h1]
  exact lookupStatus_mapped_append (setDeleted ∘ lookupStatus l)
    (fun u => lookupStatus_userID l u) members l uid

/-- C1.  Saved-exemption: a direct message saved by either side passes
through the sweep step untouched with no notification, whatever the clock
says; a group message saved by any current member survives the sweep step
with no notification and with every user's `deleted_for_user` flag exactly
as before. -/
theorem saved_exemption_sweep :
    (∀ (now : Int) (users : Nat → Option User) (m : Message),
        isSavedDirect m = true →
        directSweepStep now users m = (some m, [])) ∧
    (∀ (now : Int) (groups : Nat → Option (List Nat)) (users : Nat → Option User)
        (m : GMsg) (members : List Nat),
        groups m.groupChatID = some members →
        groupAnySaved (buildStatuses members m.statuses) = true →
        ∃ m', groupSweepStep now groups users m = (some m', []) ∧
          ∀ uid : Nat, (lookupStatus m'.statuses uid).deleted_for_user =
            (lookupStatus m.statuses uid).deleted_for_user) := by
  constructor
  · intro now users m hs
    unfold directSweepStep
    by_cases h1 : (m.groupChatID.isSome || (m.deleted_for_sender && m.deleted_for_receiver)) = true
    · rw [if_pos h1]
    · rw [if_neg h1]
      by_cases h2 : m.is_unsent = true
      · rw [if_pos h2]
      · rw [if_neg h2]
        cases hu1 : users m.senderID with
        | none => rfl
        | some sender =>
          cases hu2 : users m.receiverID with
          | none => rfl
          | some recv =>
            have hphase : directSoftPhase now sender m = (m, []) := by
              unfold directSoftPhase
              rw [hs]
              simp
            simp only [hphase]
            have hflags : (m.deleted_for_sender && m.deleted_for_receiver) = false := by
              revert h1
              cases m.groupChatID.isSome <;>
                cases hb : (m.deleted_for_sender && m.deleted_for_receiver) <;> simp
            rw [hflags]
            simp
  · intro now groups users m members hg hs
    by_cases hu : m.is_unsent = true
    · refine ⟨m, ?_, fun uid => rfl⟩
      unfold groupSweepStep
      rw [if_pos hu]
    · have hne : members.isEmpty = false := by
        cases hmm : members with
        | nil =>
          rw [hmm] at hs
          simp [buildStatuses, groupAnySaved] at hs
        | cons a l => rfl
      refine ⟨{ m with statuses := buildStatuses members m.statuses ++
                  leftoverStatuses members m.statuses }, ?_, ?_⟩
      · rw [Bool.not_eq_true] at hu
        simp [groupSweepStep, hu, hg, hne, hs]
      · intro uid
        rw [lookupStatus_build_append]

/-- Closed witness for `saved_exemption_sweep`: a saved direct message and a
saved two-member group message, both far past every deadline. -/
theorem saved_exemption_sweep_witness :
    directSweepStep 1000000 (fun _ => some ⟨some 1, none⟩)
      ⟨1, 10, 11, none, 0, some 1, some 2, true, false, false, false, none, false⟩ =
      (some ⟨1, 10, 11, none, 0, some 1, some 2, true, false, false, false, none, false⟩, []) ∧
    ∃ m', groupSweepStep 1000000 (fun _ => some [10, 11]) (fun _ => some ⟨some 1, none⟩)
        ⟨2, 10, 7, 0, false, [⟨10, some 1, false, false, none⟩, ⟨11, some 2, true, false, none⟩]⟩ =
        (some m', []) ∧
      ∀ uid : Nat, (lookupStatus m'.statuses uid).deleted_for_user =
        (lookupStatus [(⟨10, some 1, false, false, none⟩ : GStatus),
          ⟨11, some 2, true, false, none⟩] uid).deleted_for_user :=
  ⟨saved_exemption_sweep.1 1000000 (fun _ => some ⟨some 1, none⟩)
      ⟨1, 10, 11, none, 0, some 1, some 2, true, false, false, false, none, false⟩
      (by decide),
   saved_exemption_sweep.2 1000000 (fun _ => some [10, 11]) (fun _ => some ⟨some 1, none⟩)
      ⟨2, 10, 7, 0, false, [⟨10, some 1, false, false, none⟩, ⟨11, some 2, true, false, none⟩]⟩
      [10, 11] rfl (by decide)⟩

/-- C9.  Every direct message stored by `create_message` (either branch) has
`read_by_sender_at` set to the creation time; consequently, for any message
whose `read_by_sender_at` is set, the sweep's both-read condition is
equivalent to the receiver having read, and the 24-hour fallback branch
(taken exactly when `directBothRead` is false) can only be triggered by the
receiver not having read. -/
theorem create_message_sets_sender_read :
    (∀ (σ : Nat → Nat) (ctr : Nat) (now : Int) (msgID sid rid : Nat)
        (content : Bytes) (rpub spub : Nat),
        (create_message_server σ ctr now msgID sid rid content rpub
          spub).meta.read_by_sender_at = some now) ∧
    (∀ (now : Int) (msgID sid rid : Nat) (p : ClientPayload),
        (create_message_client now msgID sid rid p).meta.read_by_sender_at =
          some now) ∧
    (∀ m : Message, m.read_by_sender_at.isSome = true →
        directBothRead m = m.read_by_receiver_at.isSome ∧
        (directBothRead m = false ↔ m.read_by_receiver_at.isSome = false)) := by
  refine ⟨fun _ _ _ _ _ _ _ _ _ => rfl, fun _ _ _ _ _ => rfl, ?_⟩
  intro m h
  unfold directBothRead
  rw [h]
  constructor
  · exact Bool.true_and _
  · rw [Bool.true_and]

/-- Closed witness for `create_message_sets_sender_read`: the read-condition
equivalence evaluated on a stored client-encrypted message. -/
theorem create_message_sets_sender_read_witness :
    directBothRead (create_message_client 5 1 2 3 ⟨[1], 2, 3, 4, 5, 6⟩).meta =
      (create_message_client 5 1 2 3 ⟨[1], 2, 3, 4, 5, 6⟩).meta.read_by_receiver_at.isSome ∧
    (directBothRead (create_message_client 5 1 2 3 ⟨[1], 2, 3, 4, 5, 6⟩).meta = false ↔
      (create_message_client 5 1 2 3 ⟨[1], 2, 3, 4, 5, 6⟩).meta.read_by_receiver_at.isSome = false) :=
  create_message_sets_sender_read.2.2
    (create_message_client 5 1 2 3 ⟨[1], 2, 3, 4, 5, 6⟩).meta (by decide)

/-- C10.  Removing a message from backups is symmetric: on success the direct
branch of `delete_backup` clears BOTH `saved_by_sender` and
`saved_by_receiver` and stamps `timer_reset_at` with the current time, and
the group branch clears `saved_by_user` and stamps `timer_reset_at` on EVERY
status record of the message; moreover the group branch succeeds only when
the calling member's own record was saved. -/
theorem delete_backup_symmetric :
    (∀ (now : Int) (uid : Nat) (m m' : Message),
        delete_backup_direct now uid m = .ok m' →
        m'.saved_by_sender = false ∧ m'.saved_by_receiver = false ∧
        m'.timer_reset_at = some now) ∧
    (∀ (now : Int) (uid : Nat) (l l' : List GStatus),
        delete_backup_group now uid l = .ok l' →
        ((lookupStatus l uid).saved_by_user = true ∧
         ∀ s ∈ l', s.saved_by_user = false ∧ s.timer_reset_at = some now)) := by
  constructor
  · intro now uid m m' h
    unfold delete_backup_direct at h
    by_cases h1 : m.senderID ≠ uid ∧ m.receiverID ≠ uid
    · rw [if_pos h1] at h
      cases h
    · rw [if_neg h1] at h
      by_cases h2 : (!(m.saved_by_sender || m.saved_by_receiver)) = true
      · rw [if_pos h2] at h
        cases h
      · rw [if_neg h2] at h
        cases h
        exact ⟨rfl, rfl, rfl⟩
  · intro now uid l l' h
    unfold delete_backup_group at h
    split at h
    · cases h
    · rename_i st hf
      split at h
      · cases h
      · rename_i h2
        cases h
        refine ⟨?_, ?_⟩
        · have hl : lookupStatus l uid = st := by
            unfold lookupStatus
            rw [hf]
            rfl
          rw [hl]
          cases hb : st.saved_by_user
          · rw [hb] at h2
            simp at h2
          · rfl
        · intro s hs
          obtain ⟨t, _, rfl⟩ := List.mem_map.mp hs
          exact ⟨rfl, rfl⟩

/-- Closed witness for `delete_backup_symmetric`: one saved direct message
un-starred by its sender, and one two-record status table un-starred by the
member who saved it. -/
theorem delete_backup_symmetric_witness :
    ((⟨1, 10, 11, none, 0, none, none, false, false, false, false, some 50,
        false⟩ : Message).saved_by_sender = false ∧
      (⟨1, 10, 11, none, 0, none, none, false, false, false, false, some 50,
        false⟩ : Message).saved_by_receiver = false ∧
      (⟨1, 10, 11, none, 0, none, none, false, false, false, false, some 50,
        false⟩ : Message).timer_reset_at = some 50) ∧
    ((lookupStatus [(⟨10, some 1, true, false, none⟩ : GStatus),
        ⟨11, none, false, true, some 3⟩] 10).saved_by_user = true ∧
      ∀ s ∈ [(⟨10, some 1, false, false, some 50⟩ : GStatus),
        ⟨11, none, false, true, some 50⟩],
        s.saved_by_user = false ∧ s.timer_reset_at = some 50) :=
  ⟨delete_backup_symmetric.1 50 10
      ⟨1, 10, 11, none, 0, none, none, true, false, false, false, none, false⟩
      ⟨1, 10, 11, none, 0, none, none, false, false, false, false, some 50, false⟩
      (by rfl),
   delete_backup_symmetric.2 50 10
      [⟨10, some 1, true, false, none⟩, ⟨11, none, false, true, some 3⟩]
      [⟨10, some 1, false, false, some 50⟩, ⟨11, none, false, true, some 50⟩]
      (by rfl)⟩

/-- C3.  Group read-condition: `send_group_message` creates the sender's
status record already marked read at the creation time, and under that
invariant (the sender's record, when the sender is still a member, has
`read_at` set) the sweep's branch condition `groupAllRead` — which literally
requires every member's `read_at` including the sender's — holds exactly when
all NON-SENDER members have read; while some non-sender member has not read,
`groupDeadlineHit` applies only the `sentAt + 24h` fallback. -/
theorem group_read_condition :
    (∀ (now : Int) (msgID sid gid : Nat),
        (send_group_message now msgID sid gid).statuses =
          [⟨sid, some now, false, false, none⟩]) ∧
    (∀ (members : List Nat) (l : List GStatus) (sid : Nat),
        (sid ∈ members → (lookupStatus l sid).read_at.isSome = true) →
        (groupAllRead (buildStatuses members l) = true ↔
          ∀ uid ∈ members, uid ≠ sid → (lookupStatus l uid).read_at.isSome = true)) ∧
    (∀ (now : Int) (users : Nat → Option User) (m : GMsg) (sts : List GStatus),
        groupAllRead sts = false →
        groupDeadlineHit now users m sts = decide (now ≥ m.timeStamp + 24 * 3600)) := by
  refine ⟨fun _ _ _ _ => rfl, ?_, ?_⟩
  · intro members l sid hsender
    have hall : groupAllRead (buildStatuses members l) = true ↔
        ∀ uid ∈ members, (lookupStatus l uid).read_at.isSome = true := by
      unfold groupAllRead buildStatuses
      rw [List.all_eq_true]
      constructor
      · intro h uid hu
        exact h (lookupStatus l uid) (List.mem_map.mpr ⟨uid, hu, rfl⟩)
      · intro h s hs
        obtain ⟨uid, hu, rfl⟩ := List.mem_map.mp hs
        exact h uid hu
    rw [hall]
    constructor
    · intro h uid hu _
      exact h uid hu
    · intro h uid hu
      by_cases he : uid = sid
      · subst he
        exact hsender hu
      · exact h uid hu he
  · intro now users m sts h
    unfold groupDeadlineHit
    rw [h]
    simp

/-- Closed witness for `group_read_condition`: a three-member group in which
the two non-sender members have read (sender's record read at send time), and
a status table with an unread member. -/
theorem group_read_condition_witness :
    (groupAllRead (buildStatuses [1, 2, 3]
        [⟨1, some 0, false, false, none⟩, ⟨2, some 5, false, false, none⟩,
         ⟨3, some 9, false, false, none⟩]) = true ↔
      ∀ uid ∈ [1, 2, 3], uid ≠ 1 →
        (lookupStatus [(⟨1, some 0, false, false, none⟩ : GStatus),
          ⟨2, some 5, false, false, none⟩, ⟨3, some 9, false, false, none⟩]
          uid).read_at.isSome = true) ∧
    groupDeadlineHit 10 (fun _ => some ⟨none, none⟩)
      ⟨5, 1, 9, 0, false, [⟨2, none, false, false, none⟩]⟩
      [⟨2, none, false, false, none⟩] =
      decide ((10 : Int) ≥ 0 + 24 * 3600) :=
  ⟨group_read_condition.2.1 [1, 2, 3]
      [⟨1, some 0, false, false, none⟩, ⟨2, some 5, false, false, none⟩,
       ⟨3, some 9, false, false, none⟩] 1 (fun _ => by decide),
   group_read_condition.2.2 10 (fun _ => some ⟨none, none⟩)
      ⟨5, 1, 9, 0, false, [⟨2, none, false, false, none⟩]⟩
      [⟨2, none, false, false, none⟩] (by decide)⟩

/-- Modelled from the spec's words, for comparison with the source: the
claimed baseline `max(bothReadTime, timerResetAt or -inf,
senderSettingsChangedAt or -inf)` of the direct-message transition rule (a
missing timestamp never wins the max, which the `getD both_read_time`
encodes). -/
def specBaselineDirect (sender : User) (m : Message) : Int :=
  max (max (m.read_by_sender_at.getD 0) (m.read_by_receiver_at.getD 0))
    (max (m.timer_reset_at.getD
        (max (m.read_by_sender_at.getD 0) (m.read_by_receiver_at.getD 0)))
      (sender.settings_updated_at.getD
        (max (m.read_by_sender_at.getD 0) (m.read_by_receiver_at.getD 0))))

/-- Baseline the code actually uses, written with `max`: `timer_reset_at`
when set (both-read time and settings-change time are then ignored),
otherwise `max(bothReadTime, senderSettingsChangedAt or -inf)`. -/
def amendedBaselineDirect (sender : User) (m : Message) : Int :=
  match m.timer_reset_at with
  | some t => t
  | none =>
    max (max (m.read_by_sender_at.getD 0) (m.read_by_receiver_at.getD 0))
      (sender.settings_updated_at.getD
        (max (m.read_by_sender_at.getD 0) (m.read_by_receiver_at.getD 0)))

/-- C2 counterexample: a fully-read, unsaved direct message whose
`timer_reset_at` (0) is EARLIER than its both-read time (100).  At
`now = 86400` the claim's deadline `specBaselineDirect + 24h = 86500` has not
passed, yet the sweep marks both sides deleted (and, both flags now holding,
purges the row): the code starts the window at `timer_reset_at` alone instead
of the claimed three-way max. -/
theorem direct_transition_rule_cex :
    directBothRead ⟨1, 10, 11, none, 0, some 0, some 100, false, false, false,
      false, some 0, false⟩ = true ∧
    isSavedDirect ⟨1, 10, 11, none, 0, some 0, some 100, false, false, false,
      false, some 0, false⟩ = false ∧
    (86400 : Int) < specBaselineDirect ⟨none, none⟩
      ⟨1, 10, 11, none, 0, some 0, some 100, false, false, false, false,
        some 0, false⟩ +
      retentionHoursOf ⟨none, none⟩ * 3600 ∧
    (directSoftPhase 86400 ⟨none, none⟩
      ⟨1, 10, 11, none, 0, some 0, some 100, false, false, false, false,
        some 0, false⟩).1.deleted_for_sender = true ∧
    (directSoftPhase 86400 ⟨none, none⟩
      ⟨1, 10, 11, none, 0, some 0, some 100, false, false, false, false,
        some 0, false⟩).1.deleted_for_receiver = true ∧
    (directSweepStep 86400 (fun _ => some ⟨none, none⟩)
      ⟨1, 10, 11, none, 0, some 0, some 100, false, false, false, false,
        some 0, false⟩).1 = none := by
  decide

/-- C2 amended.  Direct-message transition rule as the code implements it:
the window baseline is `timer_reset_at` when set, otherwise
`max(bothReadTime, senderSettingsChangedAt or -inf)`
(`directStartTime = amendedBaselineDirect`); when both sides have read, the
sweep's soft phase sets each deleted flag exactly when
`now ≥ baseline + senderRetentionHours` and the message is saved by neither
side; when not both have read, exactly when `now ≥ sentAt + 24h` and not
saved. -/
theorem direct_transition_rule_amended (now : Int) (sender : User) (m : Message) :
    directStartTime sender m = amendedBaselineDirect sender m ∧
    (directBothRead m = true →
      (directSoftPhase now sender m).1.deleted_for_sender =
        (m.deleted_for_sender ||
          (decide (now ≥ amendedBaselineDirect sender m +
            retentionHoursOf sender * 3600) && !isSavedDirect m)) ∧
      (directSoftPhase now sender m).1.deleted_for_receiver =
        (m.deleted_for_receiver ||
          (decide (now ≥ amendedBaselineDirect sender m +
            retentionHoursOf sender * 3600) && !isSavedDirect m))) ∧
    (directBothRead m = false →
      (directSoftPhase now sender m).1.deleted_for_sender =
        (m.deleted_for_sender ||
          (decide (now ≥ m.timeStamp + 24 * 3600) && !isSavedDirect m)) ∧
      (directSoftPhase now sender m).1.deleted_for_receiver =
        (m.deleted_for_receiver ||
          (decide (now ≥ m.timeStamp + 24 * 3600) && !isSavedDirect m))) := by
  have hstart : directStartTime sender m = amendedBaselineDirect sender m := by
    unfold directStartTime amendedBaselineDirect
    cases m.timer_reset_at with
    | some t => rfl
    | none =>
      cases sender.settings_updated_at with
      | none => simp
      | some s =>
        simp only [Option.getD_some]
        rcases le_or_lt s (max (m.read_by_sender_at.getD 0)
            (m.read_by_receiver_at.getD 0)) with hle | hlt
        · rw [if_neg (not_lt.mpr hle), max_eq_left hle]
        · rw [if_pos hlt, max_eq_right (le_of_lt hlt)]
  refine ⟨hstart, ?_, ?_⟩
  · intro hbr
    unfold directSoftPhase
    rw [hbr, hstart]
    simp only [if_true]
    by_cases hc : (decide (now ≥ amendedBaselineDirect sender m +
        retentionHoursOf sender * 3600) && !isSavedDirect m) = true
    · rw [if_pos hc, hc]
      unfold markBothDeleted
      simp
    · rw [if_neg hc]
      rw [Bool.not_eq_true] at hc
      rw [hc]
      simp
  · intro hbr
    unfold directSoftPhase
    rw [hbr]
    simp only [Bool.false_eq_true, if_false]
    by_cases hc : (decide (now ≥ m.timeStamp + 24 * 3600) && !isSavedDirect m) = true
    · rw [if_pos hc, hc]
      unfold markBothDeleted
      simp
    · rw [if_neg hc]
      rw [Bool.not_eq_true] at hc
      rw [hc]
      simp

/-- Closed witness for `direct_transition_rule_amended`: both the both-read
branch and the fallback branch evaluated on concrete messages at the deadline
boundary. -/
theorem direct_transition_rule_amended_witness :
    ((directSoftPhase 86400 ⟨none, none⟩
        ⟨1, 10, 11, none, 0, some 0, some 100, false, false, false, false,
          some 0, false⟩).1.deleted_for_sender =
      (false || (decide ((86400 : Int) ≥ amendedBaselineDirect ⟨none, none⟩
          ⟨1, 10, 11, none, 0, some 0, some 100, false, false, false, false,
            some 0, false⟩ + retentionHoursOf ⟨none, none⟩ * 3600) &&
        !isSavedDirect ⟨1, 10, 11, none, 0, some 0, some 100, false, false,
          false, false, some 0, false⟩))) ∧
    ((directSoftPhase 7 ⟨none, none⟩
        ⟨2, 10, 11, none, 0, none, none, false, false, false, false, none,
          false⟩).1.deleted_for_receiver =
      (false || (decide ((7 : Int) ≥ 0 + 24 * 3600) &&
        !isSavedDirect ⟨2, 10, 11, none, 0, none, none, false, false, false,
          false, none, false⟩))) :=
  ⟨((direct_transition_rule_amended 86400 ⟨none, none⟩
      ⟨1, 10, 11, none, 0, some 0, some 100, false, false, false, false,
        some 0, false⟩).2.1 (by decide)).1,
   ((direct_transition_rule_amended 7 ⟨none, none⟩
      ⟨2, 10, 11, none, 0, none, none, false, false, false, false, none,
        false⟩).2.2 (by decide)).2⟩

/-- C5 counterexample: a direct envelope whose two deleted flags are BOTH
already true when the sweep runs is excluded by the sweep's query
(`deleted_for_sender == False OR deleted_for_receiver == False`) and survives
the sweep unpurged, refuting "every envelope whose flags are all true when a
sweep runs is purged by that sweep". -/
theorem hard_delete_trigger_cex :
    (⟨2, 10, 11, none, 0, none, none, false, false, true, true, none,
      false⟩ : Message).deleted_for_sender = true ∧
    (⟨2, 10, 11, none, 0, none, none, false, false, true, true, none,
      false⟩ : Message).deleted_for_receiver = true ∧
    cleanup_expired_messages 999999999 (fun _ => some ⟨none, none⟩)
      [⟨2, 10, 11, none, 0, none, none, false, false, true, true, none, false⟩] =
      ([⟨2, 10, 11, none, 0, none, none, false, false, true, true, none, false⟩],
       []) := by
  decide

/-- C5 amended.  Hard-delete trigger as the code implements it: a direct row
is purged by the sweep step iff it passed the query filter (so NOT already
deleted for both sides — such rows are skipped and never purged by the
sweep), is not unsent, both user rows exist, and after this pass's
soft-deletion phase both deleted flags hold; a group row is purged iff it is
not unsent, its group exists with a nonempty member list, NO member has it
saved (the saved check precedes the purge check), and every member's
`deleted_for_user` already holds when the sweep reaches it.  In particular no
envelope is ever purged while one of its relevant deleted flags is false. -/
theorem hard_delete_trigger_amended :
    (∀ (now : Int) (users : Nat → Option User) (m : Message),
        (directSweepStep now users m).1 = none ↔
          ((m.groupChatID.isSome || (m.deleted_for_sender && m.deleted_for_receiver)) = false ∧
           m.is_unsent = false ∧
           ∃ sender recv, users m.senderID = some sender ∧
             users m.receiverID = some recv ∧
             (directSoftPhase now sender m).1.deleted_for_sender = true ∧
             (directSoftPhase now sender m).1.deleted_for_receiver = true)) ∧
    (∀ (now : Int) (groups : Nat → Option (List Nat)) (users : Nat → Option User)
        (m : GMsg),
        (groupSweepStep now groups users m).1 = none ↔
          (m.is_unsent = false ∧
           ∃ members, groups m.groupChatID = some members ∧
             members.isEmpty = false ∧
             groupAnySaved (buildStatuses members m.statuses) = false ∧
             groupAllDeleted (buildStatuses members m.statuses) = true)) := by
  constructor
  · intro now users m
    unfold directSweepStep
    by_cases h1 : (m.groupChatID.isSome || (m.deleted_for_sender && m.deleted_for_receiver)) = true
    · rw [if_pos h1]
      constructor
      · intro h
        exact Option.noConfusion h
      · rintro ⟨hf, -⟩
        rw [h1] at hf
        cases hf
    · have h1' := h1
      rw [Bool.not_eq_true] at h1'
      rw [if_neg h1]
      by_cases h2 : m.is_unsent = true
      · rw [if_pos h2]
        constructor
        · intro h
          exact Option.noConfusion h
        · rintro ⟨-, hf, -⟩
          rw [h2] at hf
          cases hf
      · have h2' := h2
        rw [Bool.not_eq_true] at h2'
        rw [if_neg h2]
        cases hu1 : users m.senderID with
        | none =>
          constructor
          · intro h
            exact Option.noConfusion h
          · rintro ⟨-, -, sender, recv, hs, -, -, -⟩
            exact Option.noConfusion hs
        | some sender =>
          cases hu2 : users m.receiverID with
          | none =>
            constructor
            · intro h
              exact Option.noConfusion h
            · rintro ⟨-, -, sender', recv, -, hr, -, -⟩
              exact Option.noConfusion hr
          | some recv =>
            dsimp only
            by_cases hdel : ((directSoftPhase now sender m).1.deleted_for_sender &&
                (directSoftPhase now sender m).1.deleted_for_receiver) = true
            · rw [if_pos hdel]
              constructor
              · intro _
                rcases Bool.and_eq_true_iff.mp hdel with ⟨hds, hdr⟩
                exact ⟨h1', h2', sender, recv, rfl, rfl, hds, hdr⟩
              · intro _
                rfl
            · rw [if_neg hdel]
              constructor
              · intro h
                exact Option.noConfusion h
              · rintro ⟨-, -, sender', recv', hs, -, hds, hdr⟩
                cases hs
                exact absurd (Bool.and_eq_true_iff.mpr ⟨hds, hdr⟩) hdel
  · intro now groups users m
    unfold groupSweepStep
    by_cases h2 : m.is_unsent = true
    · rw [if_pos h2]
      constructor
      · intro h
        exact Option.noConfusion h
      · rintro ⟨hf, -⟩
        rw [h2] at hf
        cases hf
    · have h2' := h2
      rw [Bool.not_eq_true] at h2'
      rw [if_neg h2]
      cases hg : groups m.groupChatID with
      | none =>
        constructor
        · intro h
          exact Option.noConfusion h
        · rintro ⟨-, members, hm, -⟩
          exact Option.noConfusion hm
      | some members =>
        dsimp only
        by_cases hne : members.isEmpty = true
        · rw [if_pos hne]
          constructor
          · intro h
            exact Option.noConfusion h
          · rintro ⟨-, members', hm, hne', -⟩
            cases hm
            rw [hne] at hne'
            cases hne'
        · have hne' := hne
          rw [Bool.not_eq_true] at hne'
          rw [if_neg hne]
          by_cases hsv : groupAnySaved (buildStatuses members m.statuses) = true
          · rw [if_pos hsv]
            constructor
            · intro h
              exact Option.noConfusion h
            · rintro ⟨-, members', hm, -, hsv', -⟩
              cases hm
              rw [hsv] at hsv'
              cases hsv'
          · have hsv' := hsv
            rw [Bool.not_eq_true] at hsv'
            rw [if_neg hsv]
            by_cases hdel : groupAllDeleted (buildStatuses members m.statuses) = true
            · rw [if_pos hdel]
              constructor
              · intro _
                exact ⟨h2', members, rfl, hne', hsv', hdel⟩
              · intro _
                rfl
            · rw [if_neg hdel]
              by_cases hdd : groupDeadlineHit now users m (buildStatuses members m.statuses) = true
              · rw [if_pos hdd]
                constructor
                · intro h
                  exact Option.noConfusion h
                · rintro ⟨-, members', hm, -, -, hdel'⟩
                  cases hm
                  exact absurd hdel' hdel
              · rw [if_neg hdd]
                constructor
                · intro h
                  exact Option.noConfusion h
                · rintro ⟨-, members', hm, -, -, hdel'⟩
                  cases hm
                  exact absurd hdel' hdel

/-! ## Second-sweep lemmas

A sweep stores a group message's member records back as
`members.map f ++ leftoverStatuses members l`; re-materialising the records
on the next sweep reproduces exactly the stored ones. -/

theorem buildStatuses_stored (f : Nat → GStatus) (hf : ∀ u, (f u).userID = u)
    (members : List Nat) (l : List GStatus) :
    buildStatuses members (members.map f ++ leftoverStatuses members l) =
      members.map f := by
  unfold buildStatuses
  apply List.map_congr_left
  intro a ha
  rw [lookupStatus_mapped_append f hf members l a,
    if_pos (List.elem_eq_true_of_mem ha)]

theorem filter_map_members_nil (f : Nat → GStatus) (hf : ∀ u, (f u).userID = u)
    (members : List Nat) (sub : List Nat) (hsub : ∀ a ∈ sub, a ∈ members) :
    (sub.map f).filter (fun s => !(members.contains s.userID)) = [] := by
  induction sub with
  | nil => rfl
  | cons a t ih =>
    rw [List.map_cons, List.filter_cons]
    have : members.contains (f a).userID = true := by
      rw [hf a]
      exact List.elem_eq_true_of_mem (hsub a (List.mem_cons_self a t))
    rw [this]
    simp only [Bool.not_true, Bool.false_eq_true, if_false]
    exact ih (fun b hb => hsub b (List.mem_cons_of_mem a hb))

theorem leftover_idem (members : List Nat) (l : List GStatus) :
    (leftoverStatuses members l).filter (fun s => !(members.contains s.userID)) =
      leftoverStatuses members l := by
  unfold leftoverStatuses
  induction l with
  | nil => rfl
  | cons s t ih =>
    rw [List.filter_cons]
    cases hk : (!(members.contains s.userID)) with
    | false =>
      simp only [Bool.false_eq_true, if_false]
      exact ih
    | true =>
      simp only [if_true]
      rw [List.filter_cons, hk]
      simp only [if_true]
      rw [ih]

theorem leftover_stored (f : Nat → GStatus) (hf : ∀ u, (f u).userID = u)
    (members : List Nat) (l : List GStatus) :
    leftoverStatuses members (members.map f ++ leftoverStatuses members l) =
      leftoverStatuses members l := by
  unfold leftoverStatuses
  rw [List.filter_append]
  have h1 := filter_map_members_nil f hf members members (fun a ha => ha)
  rw [h1, List.nil_append]
  exact leftover_idem members l

theorem anySaved_map_setDeleted (sts : List GStatus) :
    groupAnySaved (sts.map setDeleted) = groupAnySaved sts := by
  unfold groupAnySaved
  rw [List.any_map]
  rfl

theorem allDeleted_map_setDeleted (sts : List GStatus) :
    groupAllDeleted (sts.map setDeleted) = true := by
  unfold groupAllDeleted
  rw [List.all_map]
  rw [List.all_eq_true]
  intro s _
  rfl

theorem directSoftPhase_cases (now : Int) (sender : User) (m : Message) :
    directSoftPhase now sender m = markBothDeleted m ∨
      directSoftPhase now sender m = (m, []) := by
  unfold directSoftPhase
  by_cases hbr : directBothRead m = true
  · rw [if_pos hbr]
    by_cases hc : (decide (now ≥ directStartTime sender m +
        retentionHoursOf sender * 3600) && !isSavedDirect m) = true
    · rw [if_pos hc]
      exact Or.inl rfl
    · rw [if_neg hc]
      exact Or.inr rfl
  · rw [if_neg hbr]
    by_cases hc : (decide (now ≥ m.timeStamp + 24 * 3600) && !isSavedDirect m) = true
    · rw [if_pos hc]
      exact Or.inl rfl
    · rw [if_neg hc]
      exact Or.inr rfl

/-- A direct sweep step that keeps its row keeps it unchanged and emits
nothing: the only modification the step ever makes (marking both sides
deleted) forces the hard-delete branch in the same pass. -/
theorem directStep_some (now : Int) (users : Nat → Option User) (m m' : Message)
    (ns : List Note) (h : directSweepStep now users m = (some m', ns)) :
    m' = m ∧ ns = [] := by
  unfold directSweepStep at h
  by_cases h1 : (m.groupChatID.isSome || (m.deleted_for_sender && m.deleted_for_receiver)) = true
  · rw [if_pos h1] at h
    injection h with ha hb
    injection ha with ha
    exact ⟨ha.symm, hb.symm⟩
  · rw [if_neg h1] at h
    by_cases h2 : m.is_unsent = true
    · rw [if_pos h2] at h
      injection h with ha hb
      injection ha with ha
      exact ⟨ha.symm, hb.symm⟩
    · rw [if_neg h2] at h
      cases hu1 : users m.senderID with
      | none =>
        rw [hu1] at h
        injection h with ha hb
        injection ha with ha
        exact ⟨ha.symm, hb.symm⟩
      | some sender =>
        cases hu2 : users m.receiverID with
        | none =>
          rw [hu1, hu2] at h
          injection h with ha hb
          injection ha with ha
          exact ⟨ha.symm, hb.symm⟩
        | some recv =>
          rw [hu1, hu2] at h
          dsimp only at h
          rcases directSoftPhase_cases now sender m with hp | hp
          · rw [hp] at h
            have hds : (markBothDeleted m).1.deleted_for_sender = true := rfl
            have hdr : (markBothDeleted m).1.deleted_for_receiver = true := rfl
            rw [if_pos (Bool.and_eq_true_iff.mpr ⟨hds, hdr⟩)] at h
            exact absurd (congrArg Prod.fst h) (by simp)
          · rw [hp] at h
            have hflags : (m.deleted_for_sender && m.deleted_for_receiver) = false := by
              revert h1
              cases m.groupChatID.isSome <;>
                cases hb : (m.deleted_for_sender && m.deleted_for_receiver) <;> simp
            rw [hflags] at h
            simp only [Bool.false_eq_true, if_false] at h
            injection h with ha hb
            injection ha with ha
            exact ⟨ha.symm, hb.symm⟩

theorem cleanup_direct_cons (now : Int) (users : Nat → Option User)
    (m : Message) (rest : List Message) :
    cleanup_expired_messages now users (m :: rest) =
      match (directSweepStep now users m).1 with
      | some m' => (m' :: (cleanup_expired_messages now users rest).1,
          (directSweepStep now users m).2 ++ (cleanup_expired_messages now users rest).2)
      | none => ((cleanup_expired_messages now users rest).1,
          (directSweepStep now users m).2 ++ (cleanup_expired_messages now users rest).2) := by
  rfl

theorem cleanup_group_cons (now : Int) (groups : Nat → Option (List Nat))
    (users : Nat → Option User) (m : GMsg) (rest : List GMsg) :
    cleanup_expired_group_messages now groups users (m :: rest) =
      match (groupSweepStep now groups users m).1 with
      | some m' => (m' :: (cleanup_expired_group_messages now groups users rest).1,
          (groupSweepStep now groups users m).2 ++
            (cleanup_expired_group_messages now groups users rest).2)
      | none => ((cleanup_expired_group_messages now groups users rest).1,
          (groupSweepStep now groups users m).2 ++
            (cleanup_expired_group_messages now groups users rest).2) := by
  rfl

/-- A group row the next sweep pass will hard-delete: not unsent, group
exists with members, no member has it saved, and every member's record is
already marked deleted. -/
def groupPurgeable (groups : Nat → Option (List Nat)) (m : GMsg) : Bool :=
  !m.is_unsent &&
    (match groups m.groupChatID with
     | none => false
     | some members =>
       !members.isEmpty &&
         !groupAnySaved (buildStatuses members m.statuses) &&
         groupAllDeleted (buildStatuses members m.statuses))

theorem buildStatuses_build (members : List Nat) (l : List GStatus) :
    buildStatuses members
        (buildStatuses members l ++ leftoverStatuses members l) =
      buildStatuses members l :=
  buildStatuses_stored (lookupStatus l) (fun u => lookupStatus_userID l u) members l

theorem leftover_build (members : List Nat) (l : List GStatus) :
    leftoverStatuses members
        (buildStatuses members l ++ leftoverStatuses members l) =
      leftoverStatuses members l :=
  leftover_stored (lookupStatus l) (fun u => lookupStatus_userID l u) members l

theorem marked_eq_map (gid mid : Nat) (members : List Nat) (l : List GStatus) :
    (groupMarkAllDeleted gid mid (buildStatuses members l)).1 =
      members.map (setDeleted ∘ lookupStatus l) := by
  unfold groupMarkAllDeleted buildStatuses
  rw [List.map_map]

theorem buildStatuses_marked (gid mid : Nat) (members : List Nat) (l : List GStatus) :
    buildStatuses members
        ((groupMarkAllDeleted gid mid (buildStatuses members l)).1 ++
          leftoverStatuses members l) =
      (groupMarkAllDeleted gid mid (buildStatuses members l)).1 := by
  rw [marked_eq_map]
  exact buildStatuses_stored (setDeleted ∘ lookupStatus l)
    (fun u => lookupStatus_userID l u) members l

theorem leftover_marked (gid mid : Nat) (members : List Nat) (l : List GStatus) :
    leftoverStatuses members
        ((groupMarkAllDeleted gid mid (buildStatuses members l)).1 ++
          leftoverStatuses members l) =
      leftoverStatuses members l := by
  rw [marked_eq_map]
  exact leftover_stored (setDeleted ∘ lookupStatus l)
    (fun u => lookupStatus_userID l u) members l

theorem groupDeadlineHit_statuses (now : Int) (users : Nat → Option User)
    (m : GMsg) (S sts : List GStatus) :
    groupDeadlineHit now users { m with statuses := S } sts =
      groupDeadlineHit now users m sts := rfl

/-- A group sweep step that keeps its row makes the next step with the same
clock either a pure no-op or — exactly when the kept row is now fully
deleted for all members and saved by none — a hard delete; either way the
next step emits no notifications. -/
theorem groupStep_some (now : Int) (groups : Nat → Option (List Nat))
    (users : Nat → Option User) (m m' : GMsg) (ns : List GNote)
    (h : groupSweepStep now groups users m = (some m', ns)) :
    groupSweepStep now groups users m' =
      (if groupPurgeable groups m' = true then ((none : Option GMsg), ([] : List GNote))
       else (some m', [])) := by
  unfold groupSweepStep at h
  by_cases h2 : m.is_unsent = true
  · rw [if_pos h2] at h
    injection h with ha hb
    injection ha with ha
    subst ha
    have hp : groupPurgeable groups m = false := by
      unfold groupPurgeable
      rw [h2]
      rfl
    rw [hp]
    simp only [Bool.false_eq_true, if_false]
    unfold groupSweepStep
    rw [if_pos h2]
  · rw [if_neg h2] at h
    cases hg : groups m.groupChatID with
    | none =>
      rw [hg] at h
      dsimp only at h
      injection h with ha hb
      injection ha with ha
      subst ha
      have hp : groupPurgeable groups m = false := by
        unfold groupPurgeable
        rw [hg]
        simp
      rw [hp]
      simp only [Bool.false_eq_true, if_false]
      unfold groupSweepStep
      rw [if_neg h2, hg]
    | some members =>
      rw [hg] at h
      dsimp only at h
      by_cases hne : members.isEmpty = true
      · rw [if_pos hne] at h
        injection h with ha hb
        injection ha with ha
        subst ha
        have hp : groupPurgeable groups m = false := by
          unfold groupPurgeable
          rw [hg]
          dsimp only
          rw [hne]
          simp
        rw [hp]
        simp only [Bool.false_eq_true, if_false]
        unfold groupSweepStep
        rw [if_neg h2, hg]
        dsimp only
        rw [if_pos hne]
      · rw [if_neg hne] at h
        by_cases hsv : groupAnySaved (buildStatuses members m.statuses) = true
        · rw [if_pos hsv] at h
          injection h with ha hb
          injection ha with ha
          subst ha
          have hp : groupPurgeable groups { m with statuses := buildStatuses members m.statuses ++ leftoverStatuses members m.statuses } = false := by
            unfold groupPurgeable
            dsimp only
            rw [hg]
            dsimp only
            rw [buildStatuses_build, hsv]
            simp
          rw [hp]
          simp only [Bool.false_eq_true, if_false]
          unfold groupSweepStep
          dsimp only
          rw [if_neg h2, hg]
          dsimp only
          rw [if_neg hne, buildStatuses_build, leftover_build, if_pos hsv]
        · have hsv' := hsv
          rw [Bool.not_eq_true] at hsv'
          rw [if_neg hsv] at h
          by_cases hdel : groupAllDeleted (buildStatuses members m.statuses) = true
          · rw [if_pos hdel] at h
            exact absurd (congrArg Prod.fst h) (by simp)
          · have hdel' := hdel
            rw [Bool.not_eq_true] at hdel'
            rw [if_neg hdel] at h
            by_cases hdd : groupDeadlineHit now users m (buildStatuses members m.statuses) = true
            · rw [if_pos hdd] at h
              injection h with ha hb
              injection ha with ha
              subst ha
              have hmm : (groupMarkAllDeleted m.groupChatID m.msgID
                  (buildStatuses members m.statuses)).1 =
                  (buildStatuses members m.statuses).map setDeleted := rfl
              have hs2 : groupAnySaved ((groupMarkAllDeleted m.groupChatID m.msgID
                  (buildStatuses members m.statuses)).1) = false := by
                rw [hmm, anySaved_map_setDeleted]
                exact hsv'
              have hd2 : groupAllDeleted ((groupMarkAllDeleted m.groupChatID m.msgID
                  (buildStatuses members m.statuses)).1) = true := by
                rw [hmm]
                exact allDeleted_map_setDeleted _
              have hp : groupPurgeable groups { m with statuses := (groupMarkAllDeleted m.groupChatID m.msgID (buildStatuses members m.statuses)).1 ++ leftoverStatuses members m.statuses } = true := by
                unfold groupPurgeable
                dsimp only
                rw [hg]
                dsimp only
                rw [buildStatuses_marked, hs2, hd2]
                have h2'' : m.is_unsent = false := by
                  rw [Bool.not_eq_true] at h2
                  exact h2
                have hne'' : members.isEmpty = false := by
                  rw [Bool.not_eq_true] at hne
                  exact hne
                rw [h2'', hne'']
                rfl
              rw [hp]
              simp only [if_true]
              unfold groupSweepStep
              dsimp only
              rw [if_neg h2, hg]
              dsimp only
              rw [if_neg hne, buildStatuses_marked, hs2]
              simp only [Bool.false_eq_true, if_false]
              rw [hd2]
              rfl
            · rw [if_neg hdd] at h
              injection h with ha hb
              injection ha with ha
              subst ha
              have hp : groupPurgeable groups { m with statuses := buildStatuses members m.statuses ++ leftoverStatuses members m.statuses } = false := by
                unfold groupPurgeable
                dsimp only
                rw [hg]
                dsimp only
                rw [buildStatuses_build]
                rw [hdel']
                simp
              rw [hp]
              simp only [Bool.false_eq_true, if_false]
              unfold groupSweepStep
              dsimp only
              rw [if_neg h2, hg]
              dsimp only
              rw [if_neg hne, buildStatuses_build, leftover_build, if_neg hsv,
                if_neg hdel, groupDeadlineHit_statuses, if_neg hdd]

/-- C4 counterexample: a two-member group message, fully read, sweep run at
the retention deadline.  The first run soft-deletes both members; a second
run with the SAME clock and no intervening reads, saves or unsaves
hard-deletes the envelope (the purge check precedes the soft-delete in each
pass), so the second run does change state, refuting sweep idempotence as
claimed. -/
theorem sweep_not_idempotent_group_cex :
    cleanup_expired_group_messages 86420 (fun _ => some [1, 2])
        (fun _ => some ⟨none, none⟩)
        [⟨5, 1, 9, 0, false, [⟨1, some 10, false, false, none⟩,
          ⟨2, some 20, false, false, none⟩]⟩] =
      ([⟨5, 1, 9, 0, false, [⟨1, some 10, false, true, none⟩,
          ⟨2, some 20, false, true, none⟩]⟩], [(1, 9, 5), (2, 9, 5)]) ∧
    cleanup_expired_group_messages 86420 (fun _ => some [1, 2])
        (fun _ => some ⟨none, none⟩)
        [⟨5, 1, 9, 0, false, [⟨1, some 10, false, true, none⟩,
          ⟨2, some 20, false, true, none⟩]⟩] =
      ([], []) := by
  constructor
  · rfl
  · rfl

/-- C4 amended.  Sweep idempotence as the code implements it: a second run of
the direct sweep with the same clock and no intervening changes alters
nothing and emits no notifications; a second run of the group sweep emits no
notifications and flips no flags, but it hard-deletes exactly the group
envelopes the first run left fully soft-deleted and unsaved
(`groupPurgeable`) — the group sweep purges one run AFTER it soft-deletes,
so only the direct sweep is idempotent in the claimed sense. -/
theorem sweep_idempotent_amended :
    (∀ (now : Int) (users : Nat → Option User) (ms : List Message),
        cleanup_expired_messages now users
            (cleanup_expired_messages now users ms).1 =
          ((cleanup_expired_messages now users ms).1, [])) ∧
    (∀ (now : Int) (groups : Nat → Option (List Nat)) (users : Nat → Option User)
        (ms : List GMsg),
        cleanup_expired_group_messages now groups users
            (cleanup_expired_group_messages now groups users ms).1 =
          ((cleanup_expired_group_messages now groups users ms).1.filter
            (fun x => !groupPurgeable groups x), [])) := by
  constructor
  · intro now users ms
    induction ms with
    | nil => rfl
    | cons m rest ih =>
      rw [cleanup_direct_cons now users m rest]
      cases hr : (directSweepStep now users m).1 with
      | none => exact ih
      | some m' =>
        have hstep : directSweepStep now users m =
            (some m', (directSweepStep now users m).2) := by
          rw [← hr]
        obtain ⟨hm, hns⟩ := directStep_some now users m m' _ hstep
        subst hm
        have hsm : directSweepStep now users m' = (some m', []) := by
          rw [hstep, hns]
        dsimp only
        rw [cleanup_direct_cons now users m'
          ((cleanup_expired_messages now users rest).1), hsm]
        dsimp only
        rw [ih]
        rfl
  · intro now groups users ms
    induction ms with
    | nil => rfl
    | cons m rest ih =>
      rw [cleanup_group_cons now groups users m rest]
      cases hr : (groupSweepStep now groups users m).1 with
      | none => exact ih
      | some m' =>
        have hstep : groupSweepStep now groups users m =
            (some m', (groupSweepStep now groups users m).2) := by
          rw [← hr]
        have hsecond := groupStep_some now groups users m m' _ hstep
        dsimp only
        rw [cleanup_group_cons now groups users m'
          ((cleanup_expired_group_messages now groups users rest).1)]
        rw [List.filter_cons]
        by_cases hp : groupPurgeable groups m' = true
        · rw [if_pos hp] at hsecond
          rw [hsecond]
          dsimp only
          rw [ih, hp]
          simp
        · have hp' : groupPurgeable groups m' = false := by
            rw [Bool.not_eq_true] at hp
            exact hp
          rw [hp'] at hsecond
          simp only [Bool.false_eq_true, if_false] at hsecond
          rw [hsecond]
          dsimp only
          rw [ih, hp']
          simp

end ThreadSafe
